import Mathlib

/- Verification development for the anthropic-course repository.
   The Python sources under src/src/anthropic_course are shallowly embedded:
   dicts become association lists, exceptions become Except, the remote model
   client becomes an explicit oracle (a list of responses), and machine
   behaviour that the sources delegate to the Python standard library is
   reproduced for the fragment the repository exercises. -/

set_option maxRecDepth 4096

/-- JSON values as produced by the standard-library json module.  Numbers keep
their source text, since no code in the repository computes with a parsed
number: values only flow into handlers and back out through json.dumps. -/
inductive JValue where
  | null
  | bool (b : Bool)
  | num (raw : String)
  | str (s : String)
  | arr (items : List JValue)
  | obj (fields : List (String × JValue))

/-- The opening brace character, written by code point to keep string and
character literals free of literal braces. -/
def lbraceChar : Char := Char.ofNat 123

/-- The closing brace character. -/
def rbraceChar : Char := Char.ofNat 125

/-- Whitespace accepted between JSON tokens by json.loads. -/
def jsonWs (c : Char) : Bool :=
  c = ' ' || c = '\t' || c = '\n' || c = '\r'

/-- Drop leading JSON whitespace. -/
def skipJsonWs : List Char → List Char
  | [] => []
  | c :: cs => if jsonWs c then skipJsonWs cs else c :: cs

/-- Hexadecimal digit test, for the \u escape of JSON strings. -/
def isHexDigit (c : Char) : Bool :=
  c.isDigit || (97 ≤ c.toNat && c.toNat ≤ 102) || (65 ≤ c.toNat && c.toNat ≤ 70)

/-- Value of a hexadecimal digit. -/
def hexVal (c : Char) : Nat :=
  if c.isDigit then c.toNat - 48
  else if 97 ≤ c.toNat && c.toNat ≤ 102 then c.toNat - 87
  else c.toNat - 55

/-- Body of a JSON string after the opening quote: accumulates decoded
characters until the closing quote, handling the escape sequences json.loads
accepts and rejecting unescaped control characters. -/
def jsonStrAux : List Char → List Char → Except String (String × List Char)
  | _, [] => Except.error "Unterminated string"
  | acc, c :: cs =>
    if c = '"' then Except.ok (String.mk acc.reverse, cs)
    else if c = '\\' then
      match cs with
      | [] => Except.error "Unterminated string"
      | e :: cs2 =>
        if e = '"' then jsonStrAux ( '"' :: acc) cs2
        else if e = '\\' then jsonStrAux ( '\\' :: acc) cs2
        else if e = '/' then jsonStrAux ( '/' :: acc) cs2
        else if e = 'b' then jsonStrAux (Char.ofNat 8 :: acc) cs2
        else if e = 'f' then jsonStrAux (Char.ofNat 12 :: acc) cs2
        else if e = 'n' then jsonStrAux ( '\n' :: acc) cs2
        else if e = 'r' then jsonStrAux ( '\r' :: acc) cs2
        else if e = 't' then jsonStrAux ( '\t' :: acc) cs2
        else if e = 'u' then
          match cs2 with
          | h1 :: h2 :: h3 :: h4 :: cs3 =>
            if isHexDigit h1 && isHexDigit h2 && isHexDigit h3 && isHexDigit h4 then
              jsonStrAux
                (Char.ofNat (((hexVal h1 * 16 + hexVal h2) * 16 + hexVal h3) * 16 + hexVal h4) :: acc)
                cs3
            else Except.error "Invalid \\uXXXX escape"
          | _ => Except.error "Invalid \\uXXXX escape"
        else Except.error "Invalid \\escape"
    else if c.toNat < 32 then Except.error "Invalid control character"
    else jsonStrAux (c :: acc) cs

/-- Longest prefix of decimal digits together with the remainder. -/
def takeDigits : List Char → (List Char × List Char)
  | [] => ([], [])
  | c :: cs =>
    if c.isDigit then
      let (ds, rest) := takeDigits cs
      (c :: ds, rest)
    else ([], c :: cs)

/-- The JSON number grammar of json.loads: optional minus sign, an integer
part without leading zeros, an optional fraction, an optional exponent.  The
accepted source text is kept as the value. -/
def jsonNumParse (cs : List Char) : Except String (JValue × List Char) :=
  let signAndRest : List Char × List Char :=
    match cs with
    | c :: rest => if c = '-' then ([c], rest) else ([], cs)
    | [] => ([], [])
  match signAndRest.2 with
  | [] => Except.error "Expecting value"
  | c :: rest =>
    if c = '0' ∨ ¬ c.isDigit then
      if c = '0' then
        jsonNumTail (signAndRest.1 ++ [c]) rest
      else Except.error "Expecting value"
    else
      let (ds, rest2) := takeDigits rest
      jsonNumTail (signAndRest.1 ++ c :: ds) rest2
where
  /-- Optional fraction and exponent after the integer part. -/
  jsonNumTail (intPart : List Char) (cs : List Char) : Except String (JValue × List Char) :=
    let fracStep : Except String (List Char × List Char) :=
      match cs with
      | '.' :: r2 =>
        match takeDigits r2 with
        | ([], _) => Except.error "Expecting digits in fraction"
        | (ds, r3) => Except.ok (intPart ++ '.' :: ds, r3)
      | _ => Except.ok (intPart, cs)
    match fracStep with
    | Except.error e => Except.error e
    | Except.ok (mant, cs2) =>
      match cs2 with
      | e :: r2 =>
        if e = 'e' ∨ e = 'E' then
          let signAndBody : List Char × List Char :=
            match r2 with
            | s :: r3 => if s = '+' ∨ s = '-' then ([s], r3) else ([], r2)
            | [] => ([], [])
          match takeDigits signAndBody.2 with
          | ([], _) => Except.error "Expecting digits in exponent"
          | (ds, r4) => Except.ok (JValue.num (String.mk (mant ++ e :: signAndBody.1 ++ ds)), r4)
        else Except.ok (JValue.num (String.mk mant), cs2)
      | [] => Except.ok (JValue.num (String.mk mant), [])

/-- Insert a field into an object under construction with the overwrite
semantics of a Python dict: an existing key keeps its position and gets the
new value, a new key is appended. -/
def objInsert (fields : List (String × JValue)) (key : String) (v : JValue) :
    List (String × JValue) :=
  if fields.any (fun p => p.1 == key) then
    fields.map (fun p => if p.1 == key then (key, v) else p)
  else fields ++ [(key, v)]

mutual

/-- Recursive-descent JSON value parser mirroring the acceptance of
json.loads on objects, arrays, strings, numbers, true, false and null.
Fuel bounds the recursion; callers supply more fuel than any input needs. -/
def jsonVal : Nat → List Char → Except String (JValue × List Char)
  | 0, _ => Except.error "Out of fuel"
  | Nat.succ f, cs0 =>
    match skipJsonWs cs0 with
    | [] => Except.error "Expecting value"
    | c :: cs =>
      if c = lbraceChar then
        match skipJsonWs cs with
        | [] => Except.error "Expecting property name"
        | d :: cs2 =>
          if d = rbraceChar then Except.ok (JValue.obj [], cs2)
          else
            match jsonMembers f (d :: cs2) [] with
            | Except.error e => Except.error e
            | Except.ok (fs, rest) => Except.ok (JValue.obj fs, rest)
      else if c = '[' then
        match skipJsonWs cs with
        | [] => Except.error "Expecting value"
        | d :: cs2 =>
          if d = ']' then Except.ok (JValue.arr [], cs2)
          else
            match jsonItems f (d :: cs2) [] with
            | Except.error e => Except.error e
            | Except.ok (items, rest) => Except.ok (JValue.arr items, rest)
      else if c = '"' then
        match jsonStrAux [] cs with
        | Except.error e => Except.error e
        | Except.ok (s, rest) => Except.ok (JValue.str s, rest)
      else if c = 't' then
        match cs with
        | 'r' :: 'u' :: 'e' :: rest => Except.ok (JValue.bool true, rest)
        | _ => Except.error "Expecting value"
      else if c = 'f' then
        match cs with
        | 'a' :: 'l' :: 's' :: 'e' :: rest => Except.ok (JValue.bool false, rest)
        | _ => Except.error "Expecting value"
      else if c = 'n' then
        match cs with
        | 'u' :: 'l' :: 'l' :: rest => Except.ok (JValue.null, rest)
        | _ => Except.error "Expecting value"
      else if c = '-' ∨ c.isDigit then jsonNumParse (c :: cs)
      else Except.error "Expecting value"

/-- Members of a JSON object after the opening brace (first member pending). -/
def jsonMembers : Nat → List Char → List (String × JValue) →
    Except String (List (String × JValue) × List Char)
  | 0, _, _ => Except.error "Out of fuel"
  | Nat.succ f, cs, acc =>
    match cs with
    | [] => Except.error "Expecting property name"
    | c :: cs1 =>
      if c = '"' then
        match jsonStrAux [] cs1 with
        | Except.error e => Except.error e
        | Except.ok (key, cs2) =>
          match skipJsonWs cs2 with
          | ':' :: cs3 =>
            match jsonVal f cs3 with
            | Except.error e => Except.error e
            | Except.ok (v, cs4) =>
              match skipJsonWs cs4 with
              | ',' :: cs5 => jsonMembers f (skipJsonWs cs5) (objInsert acc key v)
              | d :: cs5 =>
                if d = rbraceChar then Except.ok (objInsert acc key v, cs5)
                else Except.error "Expecting delimiter"
              | [] => Except.error "Expecting delimiter"
          | _ => Except.error "Expecting colon delimiter"
      else Except.error "Expecting property name"

/-- Items of a JSON array after the opening bracket (first item pending). -/
def jsonItems : Nat → List Char → List JValue →
    Except String (List JValue × List Char)
  | 0, _, _ => Except.error "Out of fuel"
  | Nat.succ f, cs, acc =>
    match jsonVal f cs with
    | Except.error e => Except.error e
    | Except.ok (v, cs2) =>
      match skipJsonWs cs2 with
      | ',' :: cs3 => jsonItems f cs3 (acc ++ [v])
      | ']' :: cs3 => Except.ok (acc ++ [v], cs3)
      | _ => Except.error "Expecting delimiter"

end

/-- json.loads on a whole string: parse one value and demand that only
whitespace remains, as the standard library does. -/
def jsonParse (s : String) : Except String JValue :=
  match jsonVal (2 * s.length + 8) s.data with
  | Except.error e => Except.error e
  | Except.ok (v, rest) =>
    match skipJsonWs rest with
    | [] => Except.ok v
    | _ => Except.error "Extra data"

/-- Escapes applied by json.dumps to one character of a string value
(the common escapes used by the repository; ensure_ascii translation of
characters above 0x7f is outside the exercised fragment). -/
def jsonEscapeChar (c : Char) : String :=
  if c = '"' then "\\\""
  else if c = '\\' then "\\\\"
  else if c = '\n' then "\\n"
  else if c = '\t' then "\\t"
  else if c = '\r' then "\\r"
  else String.singleton c

/-- Escape a whole string for json.dumps output. -/
def jsonEscape (s : String) : String :=
  String.join (s.data.map jsonEscapeChar)

mutual

/-- json.dumps with its default separators, as used for tool-result content. -/
def jsonDumps : JValue → String
  | JValue.null => "null"
  | JValue.bool true => "true"
  | JValue.bool false => "false"
  | JValue.num raw => raw
  | JValue.str s => "\"" ++ jsonEscape s ++ "\""
  | JValue.arr items => "[" ++ jsonDumpsItems items ++ "]"
  | JValue.obj fields => "\x7b" ++ jsonDumpsFields fields ++ "\x7d"

/-- Comma-separated array items for jsonDumps. -/
def jsonDumpsItems : List JValue → String
  | [] => ""
  | [v] => jsonDumps v
  | v :: w :: rest => jsonDumps v ++ ", " ++ jsonDumpsItems (w :: rest)

/-- Comma-separated object fields for jsonDumps. -/
def jsonDumpsFields : List (String × JValue) → String
  | [] => ""
  | [(k, v)] => "\"" ++ jsonEscape k ++ "\": " ++ jsonDumps v
  | (k, v) :: p :: rest =>
    "\"" ++ jsonEscape k ++ "\": " ++ jsonDumps v ++ ", " ++ jsonDumpsFields (p :: rest)

end

/- ------------------------------------------------------------------ -/
/- Tool registry: src/src/anthropic_course/tools.py                   -/
/- ------------------------------------------------------------------ -/

/-- A Python callable handler: the parameter names of its signature as seen
by inspect.signature, and its behaviour on a keyword-argument dict.  A raised
exception is an Except.error carrying the exception text. -/
structure ToolFn where
  sigParams : List String
  run : List (String × JValue) → Except String JValue

/-- The Tool pydantic model.  The input_schema dict is projected to the two
parts the code reads: the declared property names with their optional
"default" entries, and the "required" list. -/
structure ToolSpec where
  name : String
  description : String
  fn : Option ToolFn
  properties : List (String × Option JValue)
  required : List String

/-- Tool._validate_request_params on a dict argument: every required field
present, every supplied field a declared property. -/
def validateRequestParams (t : ToolSpec) (input : List (String × JValue)) : Bool :=
  t.required.all (fun field => input.any (fun p => p.1 == field)) &&
  input.all (fun p => t.properties.any (fun q => q.1 == p.1))

/-- Python dict.update semantics on association lists with unique keys:
keys of the base keep their position and take the updated value; new keys
are appended in order. -/
def dictUpdate (base upd : List (String × JValue)) : List (String × JValue) :=
  base.map (fun p =>
    match upd.lookup p.1 with
    | some v => (p.1, v)
    | none => p)
  ++ upd.filter (fun p => (base.lookup p.1).isNone)

/-- Tool._extract_parameters: start from the schema defaults, then overlay
the caller-supplied values. -/
def extractParameters (t : ToolSpec) (input : List (String × JValue)) :
    List (String × JValue) :=
  dictUpdate (t.properties.filterMap (fun p =>
    match p.2 with
    | some d => some (p.1, d)
    | none => none)) input

/-- The signature filter inside Tool.execute: keep only parameters whose
name occurs in the handler signature (extra names are logged, not an error). -/
def signatureFilter (f : ToolFn) (params : List (String × JValue)) :
    List (String × JValue) :=
  params.filter (fun p => f.sigParams.contains p.1)

/-- Errors Tool.execute can raise: the ValueError for an invalid request,
or an exception propagated from the handler. -/
inductive ExecError where
  | invalidToolInput (toolName : String)
  | handlerError (msg : String)

/-- Tool.execute on a dict argument: a tool without a function returns None
at once; otherwise the request is validated, defaults applied, parameters
filtered to the handler signature, and the handler invoked. -/
def ToolSpec.execute (t : ToolSpec) (input : List (String × JValue)) :
    Except ExecError JValue :=
  match t.fn with
  | none => Except.ok JValue.null
  | some f =>
    if validateRequestParams t input then
      match f.run (signatureFilter f (extractParameters t input)) with
      | Except.ok v => Except.ok v
      | Except.error m => Except.error (ExecError.handlerError m)
    else Except.error (ExecError.invalidToolInput t.name)

/-- Tool.execute on an arbitrary value: _validate_request_params rejects any
argument that is not a dict, after the function-is-None short circuit. -/
def ToolSpec.executeValue (t : ToolSpec) (v : JValue) : Except ExecError JValue :=
  match t.fn with
  | none => Except.ok JValue.null
  | some _ =>
    match v with
    | JValue.obj fields => t.execute fields
    | _ => Except.error (ExecError.invalidToolInput t.name)

/-- The exception text seen by the caller of Tool.execute. -/
def execErrorMsg : ExecError → String
  | ExecError.invalidToolInput n => "Invalid tool request for " ++ n
  | ExecError.handlerError m => m

/-- A concrete tool shaped like get_current_datetime, with a handler that
returns its keyword arguments as an object. -/
def exToolWithFn : ToolSpec :=
  { name := "get_current_datetime"
    description := "Get the current date and time"
    fn := some { sigParams := ["format"], run := fun args => Except.ok (JValue.obj args) }
    properties := [("format", some (JValue.str "%Y-%m-%d %H:%M:%S"))]
    required := [] }

/- ------------------------------------------------------------------ -/
/- Grader syntax validators: src/src/anthropic_course/grader.py        -/
/- ------------------------------------------------------------------ -/

/-- Whitespace removed by the Python str.strip method with no argument. -/
def isPyWs (c : Char) : Bool :=
  c = ' ' || c = '\t' || c = '\n' || c = '\r' || c = Char.ofNat 11 || c = Char.ofNat 12

/-- Drop leading Python whitespace. -/
def dropPyWs : List Char → List Char
  | [] => []
  | c :: cs => if isPyWs c then dropPyWs cs else c :: cs

/-- Python str.strip with no argument: remove leading and trailing
whitespace. -/
def pyStrip (s : String) : String :=
  String.mk ((dropPyWs (dropPyWs s.data.reverse).reverse))

/-- Grader.validate_json: strip the text, 10 when json.loads accepts it,
0 on a decode error. -/
def validateJson (text : String) : Nat :=
  match jsonParse (pyStrip text) with
  | Except.ok _ => 10
  | Except.error _ => 0

/-- Tokens of the Python statement fragment. -/
inductive PyTok where
  | kwDef
  | kwPass
  | ident (s : String)
  | numLit (s : String)
  | lparen
  | rparen
  | colon
  | comma
  | newline

/-- First character of a Python identifier. -/
def pyIdentStart (c : Char) : Bool := c.isAlpha || c = '_'

/-- Subsequent character of a Python identifier. -/
def pyIdentChar (c : Char) : Bool := c.isAlphanum || c = '_'

/-- Modelled from the spec: the tokenizer of the standard-library ast.parse
invoked by Grader.validate_python, which is not part of src/.  Covers the
token fragment of the spec examples: identifiers, the def and pass keywords,
numbers, parentheses, colon, comma, spaces and newlines. -/
def pyTokenizeAux : Nat → List Char → Except String (List PyTok)
  | 0, _ => Except.error "Out of fuel"
  | Nat.succ _, [] => Except.ok []
  | Nat.succ f, c :: cs =>
    if c = ' ' ∨ c = '\t' then pyTokenizeAux f cs
    else if c = '\n' then
      match pyTokenizeAux f cs with
      | Except.error e => Except.error e
      | Except.ok toks => Except.ok (PyTok.newline :: toks)
    else if pyIdentStart c then
      let split := cs.span pyIdentChar
      let word := String.mk (c :: split.1)
      let tok :=
        if word = "def" then PyTok.kwDef
        else if word = "pass" then PyTok.kwPass
        else PyTok.ident word
      match pyTokenizeAux f split.2 with
      | Except.error e => Except.error e
      | Except.ok toks => Except.ok (tok :: toks)
    else if c.isDigit then
      let split := cs.span Char.isDigit
      match pyTokenizeAux f split.2 with
      | Except.error e => Except.error e
      | Except.ok toks => Except.ok (PyTok.numLit (String.mk (c :: split.1)) :: toks)
    else if c = '(' then
      match pyTokenizeAux f cs with
      | Except.error e => Except.error e
      | Except.ok toks => Except.ok (PyTok.lparen :: toks)
    else if c = ')' then
      match pyTokenizeAux f cs with
      | Except.error e => Except.error e
      | Except.ok toks => Except.ok (PyTok.rparen :: toks)
    else if c = ':' then
      match pyTokenizeAux f cs with
      | Except.error e => Except.error e
      | Except.ok toks => Except.ok (PyTok.colon :: toks)
    else if c = ',' then
      match pyTokenizeAux f cs with
      | Except.error e => Except.error e
      | Except.ok toks => Except.ok (PyTok.comma :: toks)
    else Except.error ("Invalid character " ++ String.singleton c)

/-- Remaining parameters of a def after the first name: a comma must be
followed by another name. -/
def pyParamsMore : List PyTok → Except String (List PyTok)
  | PyTok.comma :: PyTok.ident _ :: rest => pyParamsMore rest
  | toks => Except.ok toks

/-- Parameter list of a def, positioned just after the opening parenthesis;
stops in front of the closing parenthesis. -/
def pyParamsRest : List PyTok → Except String (List PyTok)
  | PyTok.rparen :: rest => Except.ok (PyTok.rparen :: rest)
  | PyTok.ident _ :: rest => pyParamsMore rest
  | _ => Except.error "Expected parameter or closing parenthesis"

/-- A simple statement of the fragment: pass, a name, or a number. -/
def pySimple : List PyTok → Except String (List PyTok)
  | PyTok.kwPass :: rest => Except.ok rest
  | PyTok.ident _ :: rest => Except.ok rest
  | PyTok.numLit _ :: rest => Except.ok rest
  | _ => Except.error "Invalid statement"

/-- Modelled from the spec: one statement of the grammar fragment accepted by
the standard-library ast.parse (not part of src/): a def statement with a
name, a parenthesized parameter list, a colon and an inline simple body, or
a simple statement. -/
def pyStmt : List PyTok → Except String (List PyTok)
  | PyTok.kwDef :: PyTok.ident _ :: PyTok.lparen :: rest =>
    (match pyParamsRest rest with
     | Except.error e => Except.error e
     | Except.ok rest2 =>
       match rest2 with
       | PyTok.rparen :: PyTok.colon :: rest3 => pySimple rest3
       | _ => Except.error "Invalid def statement")
  | PyTok.kwDef :: _ => Except.error "Invalid def statement"
  | toks => pySimple toks

/-- A module: statements separated by newlines, blank lines allowed. -/
def pyModule : Nat → List PyTok → Except String Unit
  | 0, _ => Except.error "Out of fuel"
  | Nat.succ _, [] => Except.ok ()
  | Nat.succ f, PyTok.newline :: rest => pyModule f rest
  | Nat.succ f, toks =>
    match pyStmt toks with
    | Except.error e => Except.error e
    | Except.ok rest =>
      match rest with
      | [] => Except.ok ()
      | PyTok.newline :: rest2 => pyModule f rest2
      | _ => Except.error "Invalid statement end"

/-- Modelled from the spec: ast.parse of a module, for the statement
fragment exercised by the spec examples. -/
def pyParseModule (s : String) : Except String Unit :=
  match pyTokenizeAux (s.length + 2) s.data with
  | Except.error e => Except.error e
  | Except.ok toks => pyModule (toks.length + 2) toks

/-- Grader.validate_python: strip the text, 10 when ast.parse accepts it,
0 on a SyntaxError. -/
def validatePython (text : String) : Nat :=
  match pyParseModule (pyStrip text) with
  | Except.ok _ => 10
  | Except.error _ => 0

/-- Body of a character class after its leading literal handling: consume
items until the closing bracket; running out of pattern is the
"unterminated character set" error of the standard-library regex compiler. -/
def reClassBody : List Char → Except String (List Char)
  | [] => Except.error "unterminated character set"
  | c :: rest =>
    if c = ']' then Except.ok rest
    else if c = '\\' then
      match rest with
      | [] => Except.error "bad escape (end of pattern)"
      | _ :: r2 => reClassBody r2
    else reClassBody rest

/-- A character class after the opening bracket: optional negation, then a
closing bracket in first position counts as a literal member. -/
def reClass (cs : List Char) : Except String (List Char) :=
  let cs1 :=
    match cs with
    | '^' :: rest => rest
    | _ => cs
  match cs1 with
  | ']' :: rest => reClassBody rest
  | _ => reClassBody cs1

/-- One optional quantifier after an atom: star, plus or question mark, each
optionally followed by the lazy question mark. -/
def reQuant : List Char → List Char
  | [] => []
  | c :: rest =>
    if c = '*' ∨ c = '+' ∨ c = '?' then
      match rest with
      | '?' :: r2 => r2
      | _ => rest
    else c :: rest

mutual

/-- Modelled from the spec: an alternation of the pattern grammar accepted by
the standard-library re.compile invoked by Grader.validate_regex (not part of
src/).  The fragment covers literals, anchors, the dot, escapes, character
classes, plain groups, alternation and the one-character quantifiers; braces
are treated as literals as the compiler does when they do not form a valid
counted repetition. -/
def reAlt : Nat → List Char → Except String (List Char)
  | 0, _ => Except.error "Out of fuel"
  | Nat.succ f, cs =>
    match reSeq f cs with
    | Except.error e => Except.error e
    | Except.ok rest => reAltMore f rest

/-- Further branches of an alternation, one per vertical bar. -/
def reAltMore : Nat → List Char → Except String (List Char)
  | 0, _ => Except.error "Out of fuel"
  | Nat.succ f, cs =>
    match cs with
    | '|' :: rest =>
      match reSeq f rest with
      | Except.error e => Except.error e
      | Except.ok r2 => reAltMore f r2
    | _ => Except.ok cs

/-- A concatenation of quantified atoms, stopping at a branch or group end. -/
def reSeq : Nat → List Char → Except String (List Char)
  | 0, _ => Except.error "Out of fuel"
  | Nat.succ f, cs =>
    match cs with
    | [] => Except.ok []
    | c :: _ =>
      if c = '|' ∨ c = ')' then Except.ok cs
      else
        match reAtom f cs with
        | Except.error e => Except.error e
        | Except.ok rest => reSeq f (reQuant rest)

/-- One atom of the pattern fragment. -/
def reAtom : Nat → List Char → Except String (List Char)
  | 0, _ => Except.error "Out of fuel"
  | Nat.succ f, cs =>
    match cs with
    | [] => Except.error "unexpected end of pattern"
    | c :: rest =>
      if c = '(' then
        match rest with
        | '?' :: _ => Except.error "extension groups outside fragment"
        | _ =>
          match reAlt f rest with
          | Except.error e => Except.error e
          | Except.ok r2 =>
            match r2 with
            | ')' :: r3 => Except.ok r3
            | _ => Except.error "missing ), unterminated subpattern"
      else if c = '[' then reClass rest
      else if c = '\\' then
        match rest with
        | [] => Except.error "bad escape (end of pattern)"
        | _ :: r2 => Except.ok r2
      else if c = '*' ∨ c = '+' ∨ c = '?' then Except.error "nothing to repeat"
      else Except.ok rest

end

/-- Modelled from the spec: re.compile acceptance on the pattern fragment,
demanding the whole pattern be consumed; a leftover closing parenthesis is
the unbalanced-parenthesis error. -/
def reParse (s : String) : Except String Unit :=
  match reAlt (4 * s.length + 16) s.data with
  | Except.error e => Except.error e
  | Except.ok [] => Except.ok ()
  | Except.ok (')' :: _) => Except.error "unbalanced parenthesis"
  | Except.ok _ => Except.error "unexpected characters at end of pattern"

/-- Grader.validate_regex: strip the text, 10 when re.compile accepts it,
0 on a compile error. -/
def validateRegex (text : String) : Nat :=
  match reParse (pyStrip text) with
  | Except.ok _ => 10
  | Except.error _ => 0

/-- Grader.grade_syntax: dispatch on the declared format of the test case;
the match statement has no default arm, so any other format yields None. -/
def gradeSyntaxScore (format : String) (text : String) : Option Nat :=
  if format = "json" then some (validateJson text)
  else if format = "python" then some (validatePython text)
  else if format = "regex" then some (validateRegex text)
  else none

/- ------------------------------------------------------------------ -/
/- Worker-pool result collection: dataset_generator.py and             -/
/- eval_pipeline.py                                                    -/
/- ------------------------------------------------------------------ -/

/-- DatasetGenerator.run, result collection loop: each future result is
retrieved inside a try block; a success is appended to the dataset and an
exception is logged and skipped.  A unit of work is represented by its
outcome; completion order is the list order. -/
def datasetGeneratorCollect {α : Type} : List (Except String α) → List α
  | [] => []
  | Except.ok a :: rest => a :: datasetGeneratorCollect rest
  | Except.error _ :: rest => datasetGeneratorCollect rest

/-- EvalPipeline.run, result collection loop: future.result() is called with
no surrounding try block, so the first failed unit raises out of the loop
and no result list is produced. -/
def evalPipelineCollect {α : Type} : List (Except String α) → Except String (List α)
  | [] => Except.ok []
  | Except.ok a :: rest =>
    match evalPipelineCollect rest with
    | Except.error e => Except.error e
    | Except.ok l => Except.ok (a :: l)
  | Except.error e :: _ => Except.error e

/-- Boolean success test for an Except value. -/
def exceptIsOk {ε α : Type} : Except ε α → Bool
  | Except.ok _ => true
  | Except.error _ => false

/- ------------------------------------------------------------------ -/
/- Final score combination: EvalPipeline.run_test_case                 -/
/- ------------------------------------------------------------------ -/

/-- EvalPipeline.run_test_case, score combination: when syntax grading is not
requested the syntax grade is set to 0 and the divisor is 1, otherwise the
syntax grade is used and the divisor is 2. -/
def runTestCaseScore (modelScore stxScore : ℚ) (runStxGrade : Bool) : ℚ :=
  let stxGrade : ℚ := if runStxGrade then stxScore else 0
  (modelScore + stxGrade) / (if runStxGrade then 2 else 1)

/- ------------------------------------------------------------------ -/
/- HTML report statistics: utils.generate_prompt_evaluation_report     -/
/- ------------------------------------------------------------------ -/

/-- One Eval Result as assembled by EvalPipeline.run_test_case (fields not
read by the report statistics are omitted from the embedding except the
reasoning text). -/
structure EvalResult where
  score : ℚ
  reasoning : String

/-- One field value of the eval-results dict. -/
inductive ReportField where
  | taskDescription (s : String)
  | results (rs : List EvalResult)
  | averageScore (q : ℚ)

/-- The aggregate handed to generate_prompt_evaluation_report. -/
structure EvalResults where
  taskDescription : String
  results : List EvalResult
  averageScore : ℚ

/-- The eval_results dict literal built in EvalPipeline.run: three keys. -/
def evalResultsDict (er : EvalResults) : List (String × ReportField) :=
  [("task_description", ReportField.taskDescription er.taskDescription),
   ("results", ReportField.results er.results),
   ("average_score", ReportField.averageScore er.averageScore)]

/-- total_tests in generate_prompt_evaluation_report: len(evaluation_results)
on the dict argument, which counts its keys. -/
def reportTotalTests (er : EvalResults) : Nat :=
  (evalResultsDict er).length

/-- The scores list of the report: one score per entry of the results list. -/
def reportScores (er : EvalResults) : List ℚ :=
  er.results.map (fun r => r.score)

/-- pass_rate in generate_prompt_evaluation_report: 100 times the number of
scores at least 7, divided by total_tests (0 when total_tests is 0). -/
def reportPassRate (er : EvalResults) : ℚ :=
  if reportTotalTests er ≠ 0 then
    100 * (((reportScores er).filter (fun s => 7 ≤ s)).length : ℚ) / (reportTotalTests er : ℚ)
  else 0

/-- The CSS class of a score cell: high at 8 and above, low at 5 and below,
medium otherwise. -/
def scoreClass (score : ℚ) : String :=
  if 8 ≤ score then "score-high"
  else if score ≤ 5 then "score-low"
  else "score-medium"

/- ------------------------------------------------------------------ -/
/- Conversation engine: src/src/anthropic_course/conversation.py       -/
/- ------------------------------------------------------------------ -/

/-- The input attribute of a tool_use block as the API client delivers it:
a JSON-encoded string, an already structured dict, or some other shape. -/
inductive ToolInputVal where
  | ofStr (s : String)
  | ofDict (fields : List (String × JValue))
  | other

/-- A content block of a message: text, a tool-use request, or a tool
result as built by Conversation._run_tools. -/
inductive ContentBlock where
  | text (s : String)
  | toolUse (id name : String) (input : ToolInputVal)
  | toolResult (toolUseId content : String) (isError : Bool)

/-- A response object of the remote model: content blocks plus the stop
reason the loop inspects. -/
structure ApiMessage where
  content : List ContentBlock
  stopReason : String

/-- The content slot of one history entry: _add_message stores the content
block list of a Message object, the raw string or list passed by the caller,
or None. -/
inductive MsgContent where
  | ofText (s : String)
  | ofBlocks (bs : List ContentBlock)
  | ofNone

/-- One entry of Conversation.messages. -/
structure HistMessage where
  role : String
  content : MsgContent

/-- Conversation._add_message: only the user and assistant roles are
accepted; any other role raises ValueError before anything is appended. -/
def addMessage (msgs : List HistMessage) (role : String) (content : MsgContent) :
    Except String (List HistMessage) :=
  if role = "user" ∨ role = "assistant" then
    Except.ok (msgs ++ [{ role := role, content := content }])
  else Except.error ("Invalid role: " ++ role)

/-- Conversation.text_from_message: the text of all text blocks joined by
newline, other blocks ignored. -/
def textFromMessage (m : ApiMessage) : String :=
  String.intercalate "\n"
    (m.content.filterMap (fun b =>
      match b with
      | ContentBlock.text s => some s
      | _ => none))

/-- The tool-input handling of _run_tools: a truthy string is parsed as
JSON (a parse failure is an exception caught by the surrounding try), a
dict is used as is, a falsy or unrecognized input becomes the empty dict. -/
def parseToolInput : ToolInputVal → Except String JValue
  | ToolInputVal.ofStr s => if s = "" then Except.ok (JValue.obj []) else jsonParse s
  | ToolInputVal.ofDict fields => Except.ok (JValue.obj fields)
  | ToolInputVal.other => Except.ok (JValue.obj [])

/-- A member of the tools list handed to chat: a raw dict tool carrying a
name, or a Tool object. -/
inductive ConvTool where
  | dictTool (name : String)
  | objTool (t : ToolSpec)

/-- What the matching loop of _run_tools selects for a request. -/
inductive MatchedTool where
  | editor
  | webSearchDict
  | objTool (t : ToolSpec)

/-- The matching loop of _run_tools: the first tool with the requested name
wins and the loop breaks; a dict tool whose name is neither
str_replace_editor nor web_search leaves the selection empty, which the
caller turns into the tool-not-found error; a Tool object named
str_replace_editor is redirected to the text editor runner. -/
def findMatching : List ConvTool → String → Option MatchedTool
  | [], _ => none
  | ConvTool.dictTool n :: rest, reqName =>
    if n = reqName then
      if n = "str_replace_editor" then some MatchedTool.editor
      else if n = "web_search" then some MatchedTool.webSearchDict
      else none
    else findMatching rest reqName
  | ConvTool.objTool t :: rest, reqName =>
    if t.name = reqName then
      if t.name = "str_replace_editor" then some MatchedTool.editor
      else some (MatchedTool.objTool t)
    else findMatching rest reqName

/-- One tool-use request extracted from an assistant message. -/
structure ToolUseReq where
  id : String
  name : String
  input : ToolInputVal

/-- The tool_use blocks of a message content, in order, as requests. -/
def toolUseReqs (blocks : List ContentBlock) : List ToolUseReq :=
  blocks.filterMap (fun b =>
    match b with
    | ContentBlock.toolUse i n inp => some { id := i, name := n, input := inp }
    | _ => none)

/-- The body of the per-request try block of _run_tools: find the matching
tool, parse the input, and run the tool.  The editor argument stands for the
bound _run_text_editor_tool method, whose TextEditor implementation is not
part of src/; every theorem below holds for all of its behaviours.  A dict
tool selected for web_search is not callable and has no execute attribute,
which raises the no-execute-method ValueError. -/
def runOneToolOutcome (editorExec : JValue → Except String JValue)
    (tools : List ConvTool) (req : ToolUseReq) : Except String JValue :=
  match findMatching tools req.name with
  | none => Except.error ("Tool not found: " ++ req.name)
  | some mt =>
    match parseToolInput req.input with
    | Except.error e => Except.error e
    | Except.ok tin =>
      match mt with
      | MatchedTool.editor => editorExec tin
      | MatchedTool.webSearchDict =>
        Except.error ("Tool " ++ req.name ++ " has no execute method")
      | MatchedTool.objTool t =>
        match t.executeValue tin with
        | Except.ok v => Except.ok v
        | Except.error e => Except.error (execErrorMsg e)

/-- One round-trip of the per-request loop of _run_tools: a successful
outcome is wrapped as a json.dumps result object, an exception as an error
string; either way exactly one tool_result block tagged with the request id
is produced. -/
def runOneTool (editorExec : JValue → Except String JValue)
    (tools : List ConvTool) (req : ToolUseReq) : ContentBlock :=
  match runOneToolOutcome editorExec tools req with
  | Except.ok v =>
    ContentBlock.toolResult req.id (jsonDumps (JValue.obj [("result", v)])) false
  | Except.error e =>
    ContentBlock.toolResult req.id ("Error running tool: " ++ e) true

/-- Conversation._run_tools: one tool_result block per tool_use block of the
message, in order. -/
def runTools (editorExec : JValue → Except String JValue)
    (tools : List ConvTool) (m : ApiMessage) : List ContentBlock :=
  (toolUseReqs m.content).map (runOneTool editorExec tools)

/-- The content argument chat passes to _add_message for the user turn. -/
def contentOfChatText : Option String → MsgContent
  | some s => MsgContent.ofText s
  | none => MsgContent.ofNone

/-- The tool-use loop of Conversation.chat.  The remote client is an oracle:
the list of responses it would return to successive requests.  While the
current response has stop_reason tool_use, the tool results are appended as
one user message, the next response is drawn and appended as an assistant
message.  An exhausted oracle leaves the remote call unmodelled (none). -/
def chatLoop (editorExec : JValue → Except String JValue) (tools : List ConvTool) :
    List ApiMessage → List HistMessage → ApiMessage →
    Option (List HistMessage × ApiMessage)
  | [], msgs, m =>
    if m.stopReason = "tool_use" then none
    else some (msgs, m)
  | r :: rest, msgs, m =>
    if m.stopReason = "tool_use" then
      chatLoop editorExec tools rest
        (msgs ++
          [{ role := "user", content := MsgContent.ofBlocks (runTools editorExec tools m) },
           { role := "assistant", content := MsgContent.ofBlocks r.content }]) r
    else some (msgs, m)

/-- The history right after the first remote response is appended: the
history with the caller turn added, then a truthy prefill as an assistant
turn, then the first response as an assistant message. -/
def chatInitHistory (msgs1 : List HistMessage) (prefill : Option String)
    (r : ApiMessage) : List HistMessage :=
  (match prefill with
   | some p =>
     if p = "" then msgs1
     else msgs1 ++ [{ role := "assistant", content := MsgContent.ofText p }]
   | none => msgs1) ++
  [{ role := "assistant", content := MsgContent.ofBlocks r.content }]

/-- Conversation.chat: append the caller turn (an invalid role raises before
anything is appended and before any remote request; the error carries the
history at raise time), optionally append a truthy prefill as an assistant
turn, send the request, append the response, then run the tool-use loop.
Returns the final message and its concatenated text content. -/
def chat (editorExec : JValue → Except String JValue) (tools : List ConvTool)
    (msgs0 : List HistMessage) (role : String) (text : Option String)
    (prefill : Option String) (responses : List ApiMessage) :
    Except (String × List HistMessage)
      (Option (List HistMessage × ApiMessage × String)) :=
  match addMessage msgs0 role (contentOfChatText text) with
  | Except.error e => Except.error (e, msgs0)
  | Except.ok msgs1 =>
    match responses with
    | [] => Except.ok none
    | r :: rest =>
      match chatLoop editorExec tools rest (chatInitHistory msgs1 prefill r) r with
      | none => Except.ok none
      | some (hist, final) =>
        Except.ok (some (hist, final, textFromMessage final))

/- ------------------------------------------------------------------ -/
/- Grader.grade_by_model: src/src/anthropic_course/grader.py           -/
/- ------------------------------------------------------------------ -/

/-- The argument grade_by_model hands to json.loads: either a plain string,
or the (message, text) tuple that Conversation.chat returns. -/
inductive PyLoadArg where
  | ofPyStr (s : String)
  | ofChatTuple (m : ApiMessage) (t : String)

/-- json.loads including its argument type check: a string is parsed, any
other object raises TypeError. -/
def jsonLoadsArg : PyLoadArg → Except String JValue
  | PyLoadArg.ofPyStr s => jsonParse s
  | PyLoadArg.ofChatTuple _ _ =>
    Except.error "the JSON object must be str, bytes or bytearray, not tuple"

/-- A placeholder for the text-editor runner in conversations that carry no
tools; with an empty tools list it can never be reached. -/
def unusedEditor : JValue → Except String JValue :=
  fun _ => Except.error "unused"

/-- Grader.grade_by_model on a fresh conversation: eval_text is bound to the
(message, text) tuple returned by chat, and that tuple is what json.loads
receives.  The rendered evaluation prompt is the text of the user turn;
the oracle supplies the model responses. -/
def gradeByModel (responses : List ApiMessage) (evalPrompt : String) :
    Except String JValue :=
  match chat unusedEditor [] [] "user" (some evalPrompt) (some "```json") responses with
  | Except.error (e, _) => Except.error e
  | Except.ok none => Except.error "model response unavailable"
  | Except.ok (some (_, m, t)) => jsonLoadsArg (PyLoadArg.ofChatTuple m t)

/- ------------------------------------------------------------------ -/
/- Specification-level predicates                                      -/
/- ------------------------------------------------------------------ -/

/-- The schema-validity predicate of the specification, stated directly from
its words: every field of the required list is present in the input, and
every supplied field is a declared property name. -/
def SatisfiesSchema (t : ToolSpec) (input : List (String × JValue)) : Prop :=
  (∀ field ∈ t.required, ∃ p ∈ input, p.1 = field) ∧
  (∀ p ∈ input, ∃ q ∈ t.properties, q.1 = p.1)

/-- The ids of the tool_use blocks of a content list, in order. -/
def toolUseIds (blocks : List ContentBlock) : List String :=
  blocks.filterMap (fun b =>
    match b with
    | ContentBlock.toolUse i _ _ => some i
    | _ => none)

/-- The ids of the tool_result blocks of a content list, in order. -/
def toolResultIds (blocks : List ContentBlock) : List String :=
  blocks.filterMap (fun b =>
    match b with
    | ContentBlock.toolResult i _ _ => some i
    | _ => none)

/-- The content blocks stored in a history entry (none for plain text). -/
def contentBlocksOf : MsgContent → List ContentBlock
  | MsgContent.ofBlocks bs => bs
  | _ => []

/-- A history entry that still owes tool results: an assistant message whose
content holds at least one tool_use block. -/
def PendingToolUse (m : HistMessage) : Prop :=
  m.role = "assistant" ∧ toolUseIds (contentBlocksOf m.content) ≠ []

/-- The round invariant between adjacent history entries: an assistant
message with tool_use blocks is immediately followed by one user message
whose tool_result ids are exactly its tool_use ids. -/
def StepOk (a b : HistMessage) : Prop :=
  PendingToolUse a →
    b.role = "user" ∧
    toolResultIds (contentBlocksOf b.content) = toolUseIds (contentBlocksOf a.content)

/- ------------------------------------------------------------------ -/
/- Concrete fixtures for witnesses and counterexamples                 -/
/- ------------------------------------------------------------------ -/

/-- A concrete tool shaped like set_reminder but with no function attached. -/
def exToolNoFn : ToolSpec :=
  { name := "set_reminder"
    description := "Creates a timed reminder"
    fn := none
    properties := [("content", none), ("timestamp", none)]
    required := ["content", "timestamp"] }

/-- A well-formed grading response body carrying the four expected fields. -/
def okGradeJson : String :=
  "\x7b\"strengths\": [], \"weaknesses\": [], \"reasoning\": \"ok\", \"score\": 8\x7d"

/-- A report input whose results list has exactly one entry. -/
def exReportInput : EvalResults :=
  { taskDescription := "t"
    results := [{ score := 10, reasoning := "r" }]
    averageScore := 10 }

/-- A concrete tool used in conversation fixtures. -/
def cTool : ToolSpec :=
  { name := "add"
    description := ""
    fn := some { sigParams := ["x"], run := fun _ => Except.ok (JValue.str "done") }
    properties := [("x", none)]
    required := ["x"] }

/-- A model response requesting one tool use. -/
def cResp1 : ApiMessage :=
  { content := [ContentBlock.toolUse "id1" "add" (ToolInputVal.ofDict [("x", JValue.num "1")])]
    stopReason := "tool_use" }

/-- A final model response with plain text. -/
def cResp2 : ApiMessage :=
  { content := [ContentBlock.text "bye"]
    stopReason := "end_turn" }

/-- The history produced by the fixture conversation: user turn, assistant
tool request, tool results as one user message, final assistant answer. -/
def cHist : List HistMessage :=
  [{ role := "user", content := MsgContent.ofText "hi" },
   { role := "assistant", content := MsgContent.ofBlocks cResp1.content },
   { role := "user",
     content := MsgContent.ofBlocks
       [ContentBlock.toolResult "id1" "\x7b\"result\": \"done\"\x7d" false] },
   { role := "assistant", content := MsgContent.ofBlocks cResp2.content }]

/- ------------------------------------------------------------------ -/
/- Helper lemmas                                                       -/
/- ------------------------------------------------------------------ -/

/-- The boolean check of Tool._validate_request_params decides exactly the
schema-validity predicate of the specification. -/
theorem validateRequestParams_iff (t : ToolSpec) (input : List (String × JValue)) :
    validateRequestParams t input = true ↔ SatisfiesSchema t input := by
  simp [validateRequestParams, SatisfiesSchema, List.all_eq_true, List.any_eq_true]

/-- validate_json only returns 0 or 10. -/
theorem validateJson_binary (t : String) : validateJson t = 0 ∨ validateJson t = 10 := by
  unfold validateJson
  cases jsonParse (pyStrip t) <;> simp

/-- validate_python only returns 0 or 10. -/
theorem validatePython_binary (t : String) : validatePython t = 0 ∨ validatePython t = 10 := by
  unfold validatePython
  cases pyParseModule (pyStrip t) <;> simp

/-- validate_regex only returns 0 or 10. -/
theorem validateRegex_binary (t : String) : validateRegex t = 0 ∨ validateRegex t = 10 := by
  unfold validateRegex
  cases reParse (pyStrip t) <;> simp

/-- Each iteration of the _run_tools loop emits exactly one tool_result
block, tagged with the id of the request it answers. -/
theorem runOneTool_id (editorExec : JValue → Except String JValue)
    (tools : List ConvTool) (req : ToolUseReq) :
    ∃ c b, runOneTool editorExec tools req = ContentBlock.toolResult req.id c b := by
  unfold runOneTool
  cases runOneToolOutcome editorExec tools req <;> exact ⟨_, _, rfl⟩

/-- The tool_result ids produced by _run_tools are exactly the tool_use ids
of the message, in order: each request is answered exactly once. -/
theorem runTools_ids (editorExec : JValue → Except String JValue)
    (tools : List ConvTool) (m : ApiMessage) :
    toolResultIds (runTools editorExec tools m) = toolUseIds m.content := by
  show toolResultIds ((toolUseReqs m.content).map (runOneTool editorExec tools))
      = toolUseIds m.content
  induction m.content with
  | nil => rfl
  | cons b rest ih =>
    cases b with
    | text s => simpa [toolUseReqs, toolUseIds, List.filterMap_cons] using ih
    | toolResult i c e => simpa [toolUseReqs, toolUseIds, List.filterMap_cons] using ih
    | toolUse i n inp =>
      obtain ⟨c, e, hc⟩ := runOneTool_id editorExec tools { id := i, name := n, input := inp }
      simp [toolUseReqs, toolUseIds, List.filterMap_cons, toolResultIds, hc]
      simpa [toolUseReqs, toolUseIds, toolResultIds] using ih

/-- Appending one message after a history whose last entry owes no tool
results preserves the round invariant. -/
theorem chain'_concat_not_pending {l : List HistMessage} {x : HistMessage}
    (hl : l.Chain' StepOk) (hlast : ∀ y ∈ l.getLast?, ¬ PendingToolUse y) :
    (l ++ [x]).Chain' StepOk := by
  apply List.chain'_append.mpr
  refine ⟨hl, List.chain'_singleton x, ?_⟩
  intro a ha y hy
  simp at hy
  subst hy
  intro hp
  exact absurd hp (hlast a ha)

/-- Appending the tool-result user message of a round after the assistant
message it answers preserves the round invariant. -/
theorem chain'_concat_round {l : List HistMessage}
    (editorExec : JValue → Except String JValue) (tools : List ConvTool)
    (m : ApiMessage)
    (hl : l.Chain' StepOk)
    (hlast : l.getLast? = some { role := "assistant", content := MsgContent.ofBlocks m.content }) :
    (l ++ [({ role := "user",
              content := MsgContent.ofBlocks (runTools editorExec tools m) } : HistMessage)]).Chain' StepOk := by
  apply List.chain'_append.mpr
  refine ⟨hl, List.chain'_singleton _, ?_⟩
  intro a ha y hy
  simp at hy
  subst hy
  rw [hlast] at ha
  simp at ha
  subst ha
  intro _
  exact ⟨rfl, by simpa [contentBlocksOf] using runTools_ids editorExec tools m⟩

/-- The tool-use loop preserves the round invariant: starting from a history
satisfying it whose last entry is the assistant message under inspection,
any history the loop returns satisfies it as well. -/
theorem chatLoop_chain (editorExec : JValue → Except String JValue) (tools : List ConvTool) :
    ∀ (responses : List ApiMessage) (msgs : List HistMessage) (m : ApiMessage),
      msgs.Chain' StepOk →
      msgs.getLast? = some { role := "assistant", content := MsgContent.ofBlocks m.content } →
      ∀ hist final, chatLoop editorExec tools responses msgs m = some (hist, final) →
      hist.Chain' StepOk := by
  intro responses
  induction responses with
  | nil =>
    intro msgs m hc _ hist final hrun
    by_cases hs : m.stopReason = "tool_use" <;> simp [chatLoop, hs] at hrun
    obtain ⟨h1, _⟩ := hrun
    subst h1
    exact hc
  | cons r rest ih =>
    intro msgs m hc hlast hist final hrun
    by_cases hs : m.stopReason = "tool_use"
    · simp only [chatLoop, hs, if_true] at hrun
      set u : HistMessage :=
        { role := "user", content := MsgContent.ofBlocks (runTools editorExec tools m) } with hu
      set a : HistMessage :=
        { role := "assistant", content := MsgContent.ofBlocks r.content } with ha
      have e : msgs ++ [u, a] = (msgs ++ [u]) ++ [a] := by simp
      rw [e] at hrun
      have hch1 : (msgs ++ [u]).Chain' StepOk :=
        chain'_concat_round editorExec tools m hc hlast
      have l1 : (msgs ++ [u]).getLast? = some u := List.getLast?_concat _
      have hch2 : ((msgs ++ [u]) ++ [a]).Chain' StepOk := by
        apply chain'_concat_not_pending hch1
        intro y hy
        rw [l1] at hy
        simp at hy
        subst hy
        simp [PendingToolUse, hu]
      exact ih ((msgs ++ [u]) ++ [a]) r hch2 (List.getLast?_concat _) hist final hrun
    · simp [chatLoop, hs] at hrun
      obtain ⟨h1, _⟩ := hrun
      subst h1
      exact hc

/-- The tool-use loop terminates with a non-tool-use response whenever the
current response or some later oracle response stops requesting tools. -/
theorem chatLoop_total (editorExec : JValue → Except String JValue) (tools : List ConvTool) :
    ∀ (responses : List ApiMessage) (msgs : List HistMessage) (m : ApiMessage),
      (m.stopReason ≠ "tool_use" ∨ ∃ r ∈ responses, r.stopReason ≠ "tool_use") →
      ∃ hist final,
        chatLoop editorExec tools responses msgs m = some (hist, final) ∧
        final.stopReason ≠ "tool_use" := by
  intro responses
  induction responses with
  | nil =>
    intro msgs m h
    have hs : m.stopReason ≠ "tool_use" := by
      rcases h with h | ⟨r, hr, _⟩
      · exact h
      · exact absurd hr (List.not_mem_nil r)
    exact ⟨msgs, m, by simp [chatLoop, hs], hs⟩
  | cons r rest ih =>
    intro msgs m h
    by_cases hs : m.stopReason = "tool_use"
    · have hnext : r.stopReason ≠ "tool_use" ∨ ∃ q ∈ rest, q.stopReason ≠ "tool_use" := by
        rcases h with h | ⟨q, hq, hqs⟩
        · exact absurd hs h
        · rcases List.mem_cons.mp hq with hq1 | hq2
          · exact Or.inl (hq1 ▸ hqs)
          · exact Or.inr ⟨q, hq2, hqs⟩
      obtain ⟨hist, final, hrun, hfin⟩ :=
        ih (msgs ++
          [{ role := "user", content := MsgContent.ofBlocks (runTools editorExec tools m) },
           { role := "assistant", content := MsgContent.ofBlocks r.content }]) r hnext
      exact ⟨hist, final, by simp [chatLoop, hs, hrun], hfin⟩
    · exact ⟨msgs, m, by simp [chatLoop, hs], hs⟩

/- ------------------------------------------------------------------ -/
/- Claim theorems                                                      -/
/- ------------------------------------------------------------------ -/

/-- C1: for every tool and every input satisfying the schema (all required
fields present, every supplied field declared), Tool.execute returns the
return value of the handler unchanged; for every input missing a required
field or carrying an undeclared field, execute fails with the
invalid-tool-input error and the handler is never invoked: the error is the
same for every possible handler. -/
theorem execute_validates_schema (t : ToolSpec) (input : List (String × JValue)) :
    (SatisfiesSchema t input →
      ∀ (f : ToolFn) (v : JValue), t.fn = some f →
        f.run (signatureFilter f (extractParameters t input)) = Except.ok v →
        t.execute input = Except.ok v) ∧
    (¬ SatisfiesSchema t input →
      ∀ f : ToolFn, t.fn = some f →
        t.execute input = Except.error (ExecError.invalidToolInput t.name)) := by
  constructor
  · intro hs f v hf hrun
    have hv : validateRequestParams t input = true := (validateRequestParams_iff t input).mpr hs
    simp [ToolSpec.execute, hf, hv, hrun]
  · intro hs f hf
    have hv : validateRequestParams t input = false := by
      cases h : validateRequestParams t input
      · rfl
      · exact absurd ((validateRequestParams_iff t input).mp h) hs
    simp [ToolSpec.execute, hf, hv]

/-- C1 witness: a schema-conforming input reaches the handler and its value
is returned; an input with an undeclared field is rejected with the
invalid-tool-input error. -/
theorem execute_validates_schema_witness :
    exToolWithFn.execute [("format", JValue.str "%Y-%m-%d")] =
      Except.ok (JValue.obj [("format", JValue.str "%Y-%m-%d")]) ∧
    exToolWithFn.execute [("bogus", JValue.null)] =
      Except.error (ExecError.invalidToolInput "get_current_datetime") := by
  constructor
  · exact (execute_validates_schema exToolWithFn [("format", JValue.str "%Y-%m-%d")]).1
      (by simp [SatisfiesSchema, exToolWithFn]) _ _ rfl rfl
  · exact (execute_validates_schema exToolWithFn [("bogus", JValue.null)]).2
      (by simp [SatisfiesSchema, exToolWithFn]) _ rfl

/-- C10: a Tool whose function is None returns None from execute for every
input whatsoever; validation is skipped entirely, so no input raises the
invalid-tool-input error. -/
theorem execute_none_function_returns_null (t : ToolSpec)
    (input : List (String × JValue)) (h : t.fn = none) :
    t.execute input = Except.ok JValue.null := by
  simp [ToolSpec.execute, h]

/-- C10 witness: the function-less tool accepts an input that both misses
its required fields and carries an undeclared field. -/
theorem execute_none_function_returns_null_witness :
    exToolNoFn.execute [("undeclared", JValue.null)] = Except.ok JValue.null :=
  execute_none_function_returns_null exToolNoFn [("undeclared", JValue.null)] rfl

/-- C6: with syntax grading requested the final score of run_test_case is
the unweighted average of model score and syntax score; without it the
final score is the model score alone. -/
theorem run_test_case_final_score (m s : ℚ) :
    runTestCaseScore m s true = (m + s) / 2 ∧ runTestCaseScore m s false = m := by
  constructor
  · simp [runTestCaseScore]
  · simp [runTestCaseScore]

/-- C4 counterexample: in the evaluation pipeline one failing unit aborts
the batch: the collection loop raises instead of returning the results of
the sibling units. -/
theorem eval_pipeline_aborts_on_unit_failure :
    evalPipelineCollect [Except.ok (1 : Nat), Except.error "boom", Except.ok 2] =
      Except.error "boom" := rfl

/-- C4 amended: dataset-generation stage 2 logs and excludes a failing unit
while all sibling units still contribute, but the evaluation pipeline run
never produces a result list once any unit fails. -/
theorem batch_unit_failure_amended (pre post : List (Except String Nat)) (e : String) :
    datasetGeneratorCollect (pre ++ Except.error e :: post) =
      datasetGeneratorCollect pre ++ datasetGeneratorCollect post ∧
    exceptIsOk (evalPipelineCollect (pre ++ Except.error e :: post)) = false := by
  constructor
  · induction pre with
    | nil => simp [datasetGeneratorCollect]
    | cons o rest ih =>
      cases o with
      | ok a => simp [datasetGeneratorCollect, ih]
      | error e2 => simp [datasetGeneratorCollect, ih]
  · induction pre with
    | nil => simp [evalPipelineCollect, exceptIsOk]
    | cons o rest ih =>
      cases o with
      | ok a =>
        simp only [List.cons_append, evalPipelineCollect]
        cases h : evalPipelineCollect (rest ++ Except.error e :: post) with
        | error e2 => simp [exceptIsOk]
        | ok l => rw [h] at ih; simp [exceptIsOk] at ih
      | error e2 => simp [evalPipelineCollect, exceptIsOk]

/-- C5: grade_by_model binds eval_text to the (message, text) tuple returned
by Conversation.chat and hands that tuple to json.loads, which raises
TypeError for every response; even a response whose text is valid JSON with
the four expected fields is never parsed and returned. -/
theorem grade_by_model_type_error :
    jsonParse okGradeJson =
      Except.ok (JValue.obj [("strengths", JValue.arr []), ("weaknesses", JValue.arr []),
        ("reasoning", JValue.str "ok"), ("score", JValue.num "8")]) ∧
    gradeByModel [{ content := [ContentBlock.text okGradeJson], stopReason := "end_turn" }] "p" =
      Except.error "the JSON object must be str, bytes or bytearray, not tuple" :=
  ⟨rfl, rfl⟩

/-- C7: the report computes total_tests as the length of the eval-results
dict (its three keys) rather than of the results list, and divides the pass
count by that key count; on a one-result input the total reads 3 and the
pass rate 100/3.  The color bands themselves follow the claim. -/
theorem report_total_uses_dict_key_count :
    reportTotalTests exReportInput = 3 ∧
    exReportInput.results.length = 1 ∧
    reportPassRate exReportInput = 100 / 3 ∧
    scoreClass 8 = "score-high" ∧ scoreClass 5 = "score-low" ∧ scoreClass 6 = "score-medium" := by
  refine ⟨rfl, rfl, ?_, rfl, rfl, rfl⟩
  norm_num [reportPassRate, reportTotalTests, evalResultsDict, reportScores, exReportInput]

/-- C8: grade_syntax is a pure function, it returns the same 0-or-10 value
on every call for the three dispatched formats, and it decides the six
specification examples as stated. -/
theorem grade_syntax_pure_binary (format text : String)
    (h : format = "json" ∨ format = "python" ∨ format = "regex") :
    gradeSyntaxScore format text = gradeSyntaxScore format text ∧
    (gradeSyntaxScore format text = some 0 ∨ gradeSyntaxScore format text = some 10) ∧
    gradeSyntaxScore "json" "\x7b\"a\":1\x7d" = some 10 ∧
    gradeSyntaxScore "json" "\x7b\"a\":1" = some 0 ∧
    gradeSyntaxScore "python" "def f(): pass" = some 10 ∧
    gradeSyntaxScore "python" "def f(:" = some 0 ∧
    gradeSyntaxScore "regex" "^[a-z]+$" = some 10 ∧
    gradeSyntaxScore "regex" "[a-z+" = some 0 := by
  refine ⟨rfl, ?_, rfl, rfl, rfl, rfl, rfl, rfl⟩
  rcases h with h | h | h <;> subst h
  · rcases validateJson_binary text with hb | hb <;> simp [gradeSyntaxScore, hb]
  · rcases validatePython_binary text with hb | hb <;> simp [gradeSyntaxScore, hb]
  · rcases validateRegex_binary text with hb | hb <;> simp [gradeSyntaxScore, hb]

/-- C8 witness: the theorem applied to the json format at a concrete text. -/
theorem grade_syntax_pure_binary_witness :
    gradeSyntaxScore "json" "x" = some 0 ∨ gradeSyntaxScore "json" "x" = some 10 :=
  (grade_syntax_pure_binary "json" "x" (Or.inl rfl)).2.1

/-- C9: chat with any role other than user or assistant fails with the
ValueError raised inside _add_message before the message is appended and
before any oracle response is consumed: the error carries the unchanged
history, whatever the oracle holds. -/
theorem chat_invalid_role_atomic (editorExec : JValue → Except String JValue)
    (tools : List ConvTool) (msgs0 : List HistMessage) (role : String)
    (text prefill : Option String) (responses : List ApiMessage)
    (h1 : role ≠ "user") (h2 : role ≠ "assistant") :
    chat editorExec tools msgs0 role text prefill responses =
      Except.error ("Invalid role: " ++ role, msgs0) := by
  simp [chat, addMessage, h1, h2]

/-- C9 witness: the system role is rejected with the history left empty. -/
theorem chat_invalid_role_atomic_witness :
    chat unusedEditor [] [] "system" (some "hello") none [] =
      Except.error ("Invalid role: system", []) :=
  chat_invalid_role_atomic unusedEditor [] [] "system" (some "hello") none []
    (by decide) (by decide)

/-- The history built before the tool-use loop starts satisfies the round
invariant and ends with the first assistant response, provided the prior
history satisfies it and owes no tool results. -/
theorem chatInitHistory_chain (msgs0 : List HistMessage) (text prefill : Option String)
    (r : ApiMessage)
    (h0 : msgs0.Chain' StepOk)
    (hlast : ∀ x ∈ msgs0.getLast?, ¬ PendingToolUse x) :
    (chatInitHistory (msgs0 ++ [{ role := "user", content := contentOfChatText text }])
        prefill r).Chain' StepOk ∧
    (chatInitHistory (msgs0 ++ [{ role := "user", content := contentOfChatText text }])
        prefill r).getLast? =
      some { role := "assistant", content := MsgContent.ofBlocks r.content } := by
  set u : HistMessage := { role := "user", content := contentOfChatText text } with hu
  have h1 : (msgs0 ++ [u]).Chain' StepOk := chain'_concat_not_pending h0 hlast
  have h1last : (msgs0 ++ [u]).getLast? = some u := List.getLast?_concat _
  have hup : ¬ PendingToolUse u := by simp [PendingToolUse, hu]
  have hnotu : ∀ x ∈ (msgs0 ++ [u]).getLast?, ¬ PendingToolUse x := by
    intro x hx
    rw [h1last] at hx
    simp at hx
    subst hx
    exact hup
  constructor
  · unfold chatInitHistory
    cases prefill with
    | none => exact chain'_concat_not_pending h1 hnotu
    | some p =>
      by_cases hp : p = ""
      · simp only [hp, if_true]
        exact chain'_concat_not_pending h1 hnotu
      · simp only [hp, if_false]
        set pm : HistMessage := { role := "assistant", content := MsgContent.ofText p } with hpm
        have h2 : ((msgs0 ++ [u]) ++ [pm]).Chain' StepOk := chain'_concat_not_pending h1 hnotu
        have h2last : ((msgs0 ++ [u]) ++ [pm]).getLast? = some pm := List.getLast?_concat _
        have hpp : ¬ PendingToolUse pm := by
          simp [PendingToolUse, hpm, contentBlocksOf, toolUseIds]
        have e : msgs0 ++ [u] ++ [pm] ++
            [({ role := "assistant", content := MsgContent.ofBlocks r.content } : HistMessage)] =
            ((msgs0 ++ [u]) ++ [pm]) ++
            [({ role := "assistant", content := MsgContent.ofBlocks r.content } : HistMessage)] := by
          simp
        rw [e]
        apply chain'_concat_not_pending h2
        intro x hx
        rw [h2last] at hx
        simp at hx
        subst hx
        exact hpp
  · unfold chatInitHistory
    cases prefill with
    | none => exact List.getLast?_concat _
    | some p => by_cases hp : p = "" <;> simp [hp, List.getLast?_concat]

/-- C2: in the tool-use loop every tool_use block of an assistant response
is answered by exactly one tool_result block with the same id (the result
ids are exactly the use ids, in order), and the results of a round are
appended as one user message right after the assistant message, before the
next model request: every history chat can return satisfies the adjacency
invariant whenever the starting history does and owes no results. -/
theorem chat_tool_rounds_matched (editorExec : JValue → Except String JValue)
    (tools : List ConvTool) (msgs0 : List HistMessage) (text prefill : Option String)
    (responses : List ApiMessage) (hist : List HistMessage) (final : ApiMessage) (txt : String)
    (hrun : chat editorExec tools msgs0 "user" text prefill responses =
      Except.ok (some (hist, final, txt)))
    (h0 : msgs0.Chain' StepOk)
    (hlast : ∀ x ∈ msgs0.getLast?, ¬ PendingToolUse x) :
    (∀ m : ApiMessage, toolResultIds (runTools editorExec tools m) = toolUseIds m.content) ∧
    hist.Chain' StepOk := by
  refine ⟨runTools_ids editorExec tools, ?_⟩
  cases responses with
  | nil => simp [chat, addMessage] at hrun
  | cons r rest =>
    simp only [chat, addMessage, true_or, if_true] at hrun
    cases hq : chatLoop editorExec tools rest
        (chatInitHistory (msgs0 ++ [{ role := "user", content := contentOfChatText text }])
          prefill r) r with
    | none => rw [hq] at hrun; simp at hrun
    | some p =>
      obtain ⟨h2, f2⟩ := p
      rw [hq] at hrun
      simp at hrun
      obtain ⟨hh, _, _⟩ := hrun
      subst hh
      obtain ⟨hc, hl⟩ := chatInitHistory_chain msgs0 text prefill r h0 hlast
      exact chatLoop_chain editorExec tools rest _ r hc hl h2 f2 hq

/-- C2 witness: a concrete two-round conversation with one tool call; the
returned history satisfies the adjacency invariant. -/
theorem chat_tool_rounds_matched_witness : cHist.Chain' StepOk :=
  (chat_tool_rounds_matched unusedEditor [ConvTool.objTool cTool] [] (some "hi") none
    [cResp1, cResp2] cHist cResp2 "bye" rfl List.chain'_nil (by simp)).2

/-- C3: whenever the oracle eventually holds a response that stops
requesting tools, chat terminates and returns a final response that does
not request tools, together with its text content: all text blocks joined
by newline, other blocks ignored. -/
theorem chat_terminates_with_final_text (editorExec : JValue → Except String JValue)
    (tools : List ConvTool) (msgs0 : List HistMessage) (text prefill : Option String)
    (responses : List ApiMessage)
    (h : ∃ r ∈ responses, r.stopReason ≠ "tool_use") :
    ∃ hist final,
      chat editorExec tools msgs0 "user" text prefill responses =
        Except.ok (some (hist, final, textFromMessage final)) ∧
      final.stopReason ≠ "tool_use" ∧
      textFromMessage final =
        String.intercalate "\n" (final.content.filterMap (fun b =>
          match b with
          | ContentBlock.text s => some s
          | _ => none)) := by
  cases responses with
  | nil =>
    obtain ⟨r, hr, _⟩ := h
    exact absurd hr (List.not_mem_nil r)
  | cons r rest =>
    have hd : r.stopReason ≠ "tool_use" ∨ ∃ q ∈ rest, q.stopReason ≠ "tool_use" := by
      obtain ⟨q, hq, hqs⟩ := h
      rcases List.mem_cons.mp hq with h1 | h2
      · exact Or.inl (h1 ▸ hqs)
      · exact Or.inr ⟨q, h2, hqs⟩
    obtain ⟨hist, final, hrun, hfin⟩ := chatLoop_total editorExec tools rest
      (chatInitHistory (msgs0 ++ [{ role := "user", content := contentOfChatText text }])
        prefill r) r hd
    refine ⟨hist, final, ?_, hfin, rfl⟩
    simp only [chat, addMessage, true_or, if_true]
    rw [hrun]

/-- C3 witness: the fixture conversation terminates after one tool round
and returns the final text. -/
theorem chat_terminates_with_final_text_witness :
    ∃ hist final,
      chat unusedEditor [ConvTool.objTool cTool] [] "user" (some "hi") none [cResp1, cResp2] =
        Except.ok (some (hist, final, textFromMessage final)) ∧
      final.stopReason ≠ "tool_use" ∧
      textFromMessage final =
        String.intercalate "\n" (final.content.filterMap (fun b =>
          match b with
          | ContentBlock.text s => some s
          | _ => none)) :=
  chat_terminates_with_final_text unusedEditor [ConvTool.objTool cTool] [] (some "hi") none
    [cResp1, cResp2] ⟨cResp2, by simp, by decide⟩
